import Mathlib

/-
Verification of the retail-recommendation notebook
(`use-cases/retail_recommend/2_retail_recommend_train_tune.ipynb`).

The only locally implemented logic in the notebook is:
  * `get_recommendations` - candidate selection by popularity, feature-row
    construction, one-hot encoding, scoring through the deployed endpoint,
    and ranking by predicted score;
  * the model-package status polling loop;
  * the artifact-association loop with its bare `try/except`.

This file gives a shallow embedding of that logic.  Conventions:
  * A pandas dataframe row is a `Row`; only the five columns read by
    `get_recommendations` (StockCode, Description, CustomerID, Country,
    UnitPrice) are modelled.  Prices are modelled as rationals.
  * Python exceptions are modelled with `Except PyError`.  The two failure
    points reachable inside `get_recommendations` are the customer-country
    lookup `df_subset["Country"].value_counts().index[0]` (IndexError on an
    empty subset) and `csr_matrix((data, (row, col)))`, which raises
    ValueError ("cannot infer dimensions from zero sized index arrays")
    when the inference frame has zero rows.
  * `pandas.sort_values` / `numpy.argsort` use an unstable quicksort whose
    tie order is unspecified; they are determinized here as stable
    insertion sorts.  No claim depends on the tie order.
  * The deployed factorization-machine endpoint is external; it is modelled
    as an abstract function `predict : List Rat -> Rat` applied to each
    encoded feature row.  The fitted `TfidfVectorizer` transform is
    likewise passed in as an abstract function `tfidf : String -> List Rat`
    (its fit is a deterministic function of `df["Description"].unique()`,
    but its values are floating-point and no claim depends on them).
    `OneHotEncoder(handle_unknown="ignore")` is modelled exactly.
-/

deriving instance DecidableEq for Except

namespace RetailRecommend

/-- One row of the preprocessed online-retail dataframe, restricted to the
columns read by `get_recommendations`. -/
structure Row where
  stockCode : String
  description : String
  customerId : Nat
  country : String
  unitPrice : ℚ
deriving DecidableEq

/-- Python exceptions that the embedded code can raise. -/
inductive PyError where
  | indexError
  | valueError
deriving DecidableEq

/-- Character-wise lexicographic comparison of strings (as lists of
characters), used to determinize the sorted orders that pandas and numpy
produce on string keys. -/
def charsLe : List Char → List Char → Bool
  | [], _ => true
  | _ :: _, [] => false
  | c :: cs, d :: ds =>
    if c.toNat < d.toNat then true
    else if d.toNat < c.toNat then false
    else charsLe cs ds

/-- Lexicographic order on strings. -/
def strLe (a b : String) : Prop := charsLe a.data b.data = true

instance : DecidableRel strLe := fun a b => by unfold strLe; infer_instance

/-- Order on `(StockCode, UnitPrice)` group keys: lexicographic, mirroring
the sorted group order of `df.groupby(["StockCode", "UnitPrice"])`. -/
def keyLe (a b : String × ℚ) : Prop :=
  (charsLe a.1.data b.1.data ∧ ¬ charsLe b.1.data a.1.data) ∨ (a.1 = b.1 ∧ a.2 ≤ b.2)

instance : DecidableRel keyLe := fun a b => by unfold keyLe; infer_instance

/-- The number of distinct customers appearing in the rows of the
`(StockCode, UnitPrice)` group `g`: the `.nunique()["CustomerID"]`
aggregate of `df.groupby(["StockCode", "UnitPrice"])`. -/
def groupCustomerCount (df : List Row) (g : String × ℚ) : ℕ :=
  (((df.filter (fun r => r.stockCode = g.1 ∧ r.unitPrice = g.2)).map
      (fun r => r.customerId)).dedup).length

/-- The distinct `(StockCode, UnitPrice)` group keys of `df`, in the sorted
order produced by `df.groupby(["StockCode", "UnitPrice"])`. -/
def groupKeys (df : List Row) : List (String × ℚ) :=
  List.insertionSort keyLe ((df.map (fun r => (r.stockCode, r.unitPrice))).dedup)

/-- Descending order on popularity-annotated group keys, used for
`.sort_values(ascending=False)` on the distinct-customer counts. -/
def countGe (a b : (String × ℚ) × ℕ) : Prop := b.2 ≤ a.2

instance : DecidableRel countGe := fun a b => by unfold countGe; infer_instance

instance : IsTotal ((String × ℚ) × ℕ) countGe := ⟨fun a b => le_total b.2 a.2⟩

instance : IsTrans ((String × ℚ) × ℕ) countGe :=
  ⟨fun _ _ _ h1 h2 => le_trans h2 h1⟩

/-- `popular_items` of the notebook: the `(StockCode, UnitPrice)` groups of
`df` annotated with their distinct-customer counts and sorted by descending
count (`.sort_values(ascending=False)`, determinized stably). -/
def popular_items (df : List Row) : List ((String × ℚ) × ℕ) :=
  List.insertionSort countGe
    ((groupKeys df).map (fun g => (g, groupCustomerCount df g)))

/-- `top_n_items` of the notebook: `popular_items["StockCode"].iloc[:n_ranks]`. -/
def top_n_items (df : List Row) (n_ranks : ℕ) : List String :=
  ((popular_items df).take n_ranks).map (fun g => g.1.1)

/-- `top_n_prices` of the notebook: `popular_items["UnitPrice"].iloc[:n_ranks]`. -/
def top_n_prices (df : List Row) (n_ranks : ℕ) : List ℚ :=
  ((popular_items df).take n_ranks).map (fun g => g.1.2)

/-- The number of candidate rows that `get_recommendations` builds. -/
def candidateCount (df : List Row) (n_ranks : ℕ) : ℕ :=
  min n_ranks (groupKeys df).length

/-- The number of distinct customers who bought the item `code` (at any
price); the item-level popularity that C2 speaks about. -/
def itemDistinctCustomers (df : List Row) (code : String) : ℕ :=
  (((df.filter (fun r => r.stockCode = code)).map (fun r => r.customerId)).dedup).length

/-- `value_counts().index[0]`: an element of maximal multiplicity (`none`
on an empty list).  Pandas breaks ties in an unspecified deterministic
order; here the first occurrence of a maximal element wins. -/
def mostCommon {α : Type} [DecidableEq α] (l : List α) : Option α :=
  l.argmax (fun a => l.count a)

/-- `a` is a mode of `l`: it occurs in `l` and no element occurs more
often. -/
def IsMode {α : Type} [DecidableEq α] (l : List α) (a : α) : Prop :=
  a ∈ l ∧ ∀ x ∈ l, l.count x ≤ l.count a

/-- All descriptions recorded in `df` for the stock code `code`. -/
def descriptionsOf (df : List Row) (code : String) : List String :=
  (df.filter (fun r => r.stockCode = code)).map (fun r => r.description)

/-- `item_map` of the notebook: for each stock code, the most common of its
descriptions (`df.groupby("StockCode").agg(lambda x: x.value_counts().index[0])`).
It is only ever looked up at codes present in `df`, where the list of
descriptions is nonempty. -/
def item_map (df : List Row) (code : String) : String :=
  (mostCommon (descriptionsOf df code)).getD ""

/-- All countries recorded in `df` for customer `c`. -/
def countriesOf (df : List Row) (c : ℕ) : List String :=
  (df.filter (fun r => r.customerId = c)).map (fun r => r.country)

/-- The customer's most common country,
`df.loc[df["CustomerID"] == customer_id]["Country"].value_counts().index[0]`;
`none` models the IndexError raised when the customer has no rows. -/
def customerCountry (df : List Row) (c : ℕ) : Option String :=
  mostCommon (countriesOf df c)

/-- `df_inference` of the notebook: one row per candidate, carrying the
candidate stock code, its most common description, the fixed customer id,
the customer's most common country, and the candidate's price. -/
def inferenceRows (df : List Row) (customer_id : ℕ) (n_ranks : ℕ) (country : String) :
    List Row :=
  ((top_n_items df n_ranks).zip (top_n_prices df n_ranks)).map
    (fun p => ⟨p.1, item_map df p.1, customer_id, country, p.2⟩)

/-- The categories a fitted `OneHotEncoder` holds for one column: the
sorted distinct values seen at fit time. -/
def ohCategories {α : Type} [DecidableEq α] (le : α → α → Prop) [DecidableRel le]
    (vals : List α) : List α :=
  List.insertionSort le vals.dedup

/-- One-hot encoding of a single value against the fitted categories of one
column, with `handle_unknown="ignore"`: the indicator vector over the
categories; a value outside the categories yields all zeros (and never an
error). -/
def ohEncodeOne {α : Type} [DecidableEq α] (cats : List α) (v : α) : List ℕ :=
  cats.map (fun c => if v = c then 1 else 0)

/-- `inverse_transform` on one column block: the category whose indicator
position is set, `none` for an all-zero block (unknown value under
`handle_unknown="ignore"`). -/
def ohDecodeOne {α : Type} [DecidableEq α] (cats : List α) (bits : List ℕ) : Option α :=
  ((cats.zip bits).find? (fun p => p.2 = 1)).map (fun p => p.1)

/-- Categories of the fitted encoder for the `StockCode` column
(`enc.fit(df[onehot_cols])`). -/
def stockCategories (df : List Row) : List String :=
  ohCategories strLe (df.map (fun r => r.stockCode))

/-- Categories of the fitted encoder for the `CustomerID` column. -/
def customerCategories (df : List Row) : List ℕ :=
  ohCategories (fun a b : ℕ => a ≤ b) (df.map (fun r => r.customerId))

/-- Categories of the fitted encoder for the `Country` column. -/
def countryCategories (df : List Row) : List String :=
  ohCategories strLe (df.map (fun r => r.country))

/-- One row of `X_inference = hstack([onehot_output, tfidf_output, unit_price])`:
the three one-hot blocks, the TF-IDF encoding of the description, and the
unit price. -/
def encodeInfRow (df : List Row) (tfidf : String → List ℚ) (r : Row) : List ℚ :=
  ((ohEncodeOne (stockCategories df) r.stockCode).map (fun b => (b : ℚ)))
    ++ ((ohEncodeOne (customerCategories df) r.customerId).map (fun b => (b : ℚ)))
    ++ ((ohEncodeOne (countryCategories df) r.country).map (fun b => (b : ℚ)))
    ++ tfidf r.description ++ [r.unitPrice]

/-- Comparison of positions of `l` by their values, the order underlying
`np.argsort`. -/
def leIdx (l : List ℚ) (i j : ℕ) : Prop := l.getD i 0 ≤ l.getD j 0

instance (l : List ℚ) : DecidableRel (leIdx l) := fun _ _ => by unfold leIdx; infer_instance

instance (l : List ℚ) : IsTotal ℕ (leIdx l) := ⟨fun _ _ => le_total _ _⟩

instance (l : List ℚ) : IsTrans ℕ (leIdx l) := ⟨fun _ _ _ h1 h2 => le_trans h1 h2⟩

/-- `np.argsort`: the positions of `l` sorted by ascending value
(determinized stably; numpy's default quicksort breaks ties arbitrarily). -/
def argsort (l : List ℚ) : List ℕ :=
  List.insertionSort (leIdx l) (List.range l.length)

/-- `get_recommendations` of the notebook.  `tfidf` is the fitted
`TfidfVectorizer` transform and `predict` the deployed scoring endpoint,
both consumed as black boxes.  The steps mirror the source: candidate
selection by popularity, the customer-country lookup (IndexError when the
customer has no rows), the inference frame, the ValueError that
`csr_matrix` raises on a zero-row frame, encoding, scoring, `argsort` of
the scores, the reversed slice `[: -n_recommendations - 1 : -1]`, and the
final pairing with `item_map`. -/
def get_recommendations (df : List Row) (customer_id : ℕ) (n_recommendations : ℕ)
    (n_ranks : ℕ) (tfidf : String → List ℚ) (predict : List ℚ → ℚ) :
    Except PyError (List (String × String)) :=
  match customerCountry df customer_id with
  | none => .error .indexError
  | some country =>
    let df_inference := inferenceRows df customer_id n_ranks country
    if df_inference.isEmpty then .error .valueError
    else
      let X_inference := df_inference.map (encodeInfRow df tfidf)
      let preds := X_inference.map predict
      let index_array := argsort preds
      let items := df_inference.map (fun r =>
        (ohDecodeOne (stockCategories df) (ohEncodeOne (stockCategories df) r.stockCode)).getD "")
      let top_recs :=
        ((index_array.map (fun i => items.getD i "")).reverse).take n_recommendations
      .ok (top_recs.map (fun s => (s, item_map df s)))

/-- The decoded first column of `enc.inverse_transform(onehot_output)`:
round-trip of each candidate stock code through the one-hot encoder. -/
def decodedItems (df : List Row) (n_ranks : ℕ) : List String :=
  (top_n_items df n_ranks).map (fun s =>
    (ohDecodeOne (stockCategories df) (ohEncodeOne (stockCategories df) s)).getD "")

/-- The scores the endpoint returns for the candidate rows (empty when the
country lookup would fail). -/
def predsOf (df : List Row) (c : ℕ) (n_ranks : ℕ) (tfidf : String → List ℚ)
    (predict : List ℚ → ℚ) : List ℚ :=
  match customerCountry df c with
  | none => []
  | some country => ((inferenceRows df c n_ranks country).map (encodeInfRow df tfidf)).map predict

/-- The candidate positions selected by the ranking step, best score
first: `np.argsort(preds)` followed by the slice `[: -n - 1 : -1]`. -/
def recIndices (df : List Row) (c : ℕ) (n : ℕ) (n_ranks : ℕ) (tfidf : String → List ℚ)
    (predict : List ℚ → ℚ) : List ℕ :=
  ((argsort (predsOf df c n_ranks tfidf predict)).reverse).take n

/-- The predicted scores along the returned recommendation list. -/
def recScores (df : List Row) (c : ℕ) (n : ℕ) (n_ranks : ℕ) (tfidf : String → List ℚ)
    (predict : List ℚ → ℚ) : List ℚ :=
  (recIndices df c n n_ranks tfidf predict).map
    (fun i => (predsOf df c n_ranks tfidf predict).getD i 0)

/-- The model-package statuses the polling loop recognizes as terminal. -/
def terminalStatuses : List String := ["Completed", "Failed"]

/-- The model-package polling loop: observe `statuses i`; stop on a
terminal status, otherwise sleep and poll the next observation.  `fuel`
bounds the number of observations; `none` means the loop was still running
after `fuel` observations. -/
def pollLoop (statuses : ℕ → String) : ℕ → ℕ → Option String
  | _, 0 => none
  | i, fuel + 1 =>
    if statuses i ∈ terminalStatuses then some (statuses i)
    else pollLoop statuses (i + 1) fuel

/-- Outcome of one iteration of the artifact-association loop. -/
inductive AssocOutcome where
  | created
  | assumedExists
deriving DecidableEq

/-- One iteration of the association loop: `try: Association.create(...)`
succeeds, or any failure is caught and the association is assumed to
already exist. -/
def assocOutcome {α ε : Type} (create : α → Except ε Unit) (a : α) : AssocOutcome :=
  match create a with
  | .ok _ => .created
  | .error _ => .assumedExists

/-- The artifact-association loop over `artifact_list`: every iteration is
wrapped in `try/except`, so no exception from `create` escapes and the
loop continues with the next artifact. -/
def associationLoop {α ε : Type} (create : α → Except ε Unit) :
    List α → Except ε (List AssocOutcome)
  | [] => .ok []
  | a :: rest =>
    let o := assocOutcome create a
    match associationLoop create rest with
    | .ok os => .ok (o :: os)
    | .error e => .error e

/-- A placeholder TF-IDF transform used for concrete witnesses. -/
def tfidfW : String → List ℚ := fun _ => [0]

/-- A concrete endpoint for witnesses: scores each encoded row by its last
feature, which is the candidate's unit price. -/
def predictW : List ℚ → ℚ := fun v => v.getLastD 0

/-- A second endpoint, pointwise equal to `predictW` but syntactically
different, for the determinism witness. -/
def predictW2 : List ℚ → ℚ := fun v => v.getLastD 0 + 0

/-- A small concrete dataframe on which `get_recommendations` succeeds. -/
def dfW : List Row :=
  [⟨"A", "RED MUG", 1, "UK", 2⟩,
   ⟨"A", "RED MUG", 2, "UK", 2⟩,
   ⟨"B", "BLUE MUG", 1, "UK", 3⟩]

/-- The recommendations `get_recommendations dfW 1 2 5 tfidfW predictW`
returns. -/
def recsW : List (String × String) := [("B", "BLUE MUG"), ("A", "RED MUG")]

/-- A one-row dataframe. -/
def dfOne : List Row := [⟨"A", "GIFT", 1, "UK", 1⟩]

/-- A dataframe where item `A` is bought by four distinct customers but at
two different prices, while item `B` is bought by three distinct customers
at one price: per-group popularity and per-item popularity disagree. -/
def dfSplit : List Row :=
  [⟨"A", "DA", 1, "UK", 1⟩,
   ⟨"A", "DA", 2, "UK", 1⟩,
   ⟨"A", "DA", 3, "UK", 2⟩,
   ⟨"A", "DA", 4, "UK", 2⟩,
   ⟨"B", "DB", 1, "UK", 1⟩,
   ⟨"B", "DB", 2, "UK", 1⟩,
   ⟨"B", "DB", 3, "UK", 1⟩]

/-- A concrete status stream for the polling witness: one non-terminal
observation, then `Completed` forever. -/
def statusesW : ℕ → String := fun i => if i < 1 then "InProgress" else "Completed"

/-- `popular_items` has one entry per `(StockCode, UnitPrice)` group. -/
theorem length_popular_items (df : List Row) :
    (popular_items df).length = (groupKeys df).length := by
  simp [popular_items, List.length_insertionSort]

/-- The candidate list has `min n_ranks (number of groups)` entries. -/
theorem length_top_n_items (df : List Row) (k : ℕ) :
    (top_n_items df k).length = candidateCount df k := by
  simp [top_n_items, candidateCount, length_popular_items]

/-- The candidate price list has the same length as the candidate list. -/
theorem length_top_n_prices (df : List Row) (k : ℕ) :
    (top_n_prices df k).length = candidateCount df k := by
  simp [top_n_prices, candidateCount, length_popular_items]

/-- The inference frame has one row per candidate. -/
theorem length_inferenceRows (df : List Row) (c k : ℕ) (ctry : String) :
    (inferenceRows df c k ctry).length = candidateCount df k := by
  simp [inferenceRows, length_top_n_items, length_top_n_prices]

/-- The zipped candidate codes and prices are exactly the selected group
keys. -/
theorem zip_top_n (df : List Row) (k : ℕ) :
    (top_n_items df k).zip (top_n_prices df k) =
      ((popular_items df).take k).map (fun g => g.1) := by
  rw [top_n_items, top_n_prices, List.zip_map']

/-- The stock-code column of the inference frame is the candidate list. -/
theorem map_stockCode_inferenceRows (df : List Row) (c k : ℕ) (ctry : String) :
    (inferenceRows df c k ctry).map (fun r => r.stockCode) = top_n_items df k := by
  rw [inferenceRows, zip_top_n, List.map_map, List.map_map, top_n_items]
  exact List.map_congr_left (fun g _ => rfl)

/-- Membership in the sorted group-key list is membership among the
`(StockCode, UnitPrice)` pairs of `df`. -/
theorem mem_groupKeys_iff (df : List Row) (q : String × ℚ) :
    q ∈ groupKeys df ↔ q ∈ df.map (fun r => (r.stockCode, r.unitPrice)) := by
  rw [groupKeys, (List.perm_insertionSort keyLe _).mem_iff]
  exact List.mem_dedup

/-- Every entry of `popular_items` is a group key annotated with its
distinct-customer count. -/
theorem mem_popular_items (df : List Row) (g : (String × ℚ) × ℕ)
    (h : g ∈ popular_items df) :
    g.1 ∈ groupKeys df ∧ g.2 = groupCustomerCount df g.1 := by
  rw [popular_items, (List.perm_insertionSort countGe _).mem_iff, List.mem_map] at h
  obtain ⟨key, hkey, rfl⟩ := h
  exact ⟨hkey, rfl⟩

/-- Every candidate stock code occurs in `df`. -/
theorem mem_top_n_items (df : List Row) (k : ℕ) (s : String)
    (h : s ∈ top_n_items df k) : ∃ r ∈ df, r.stockCode = s := by
  rw [top_n_items, List.mem_map] at h
  obtain ⟨g, hg, rfl⟩ := h
  have hpop := mem_popular_items df g (List.mem_of_mem_take hg)
  have := (mem_groupKeys_iff df g.1).mp hpop.1
  rw [List.mem_map] at this
  obtain ⟨r, hr, hrq⟩ := this
  exact ⟨r, hr, congrArg Prod.fst hrq⟩

/-- Stock codes occurring in `df` are categories of the fitted encoder. -/
theorem mem_stockCategories (df : List Row) (s : String)
    (h : ∃ r ∈ df, r.stockCode = s) : s ∈ stockCategories df := by
  rw [stockCategories, ohCategories, (List.perm_insertionSort strLe _).mem_iff,
    List.mem_dedup, List.mem_map]
  obtain ⟨r, hr, hs⟩ := h
  exact ⟨r, hr, hs⟩

/-- Round trip of the one-hot encoding: a value among the categories is
recovered exactly by `inverse_transform`. -/
theorem ohDecodeOne_ohEncodeOne {α : Type} [DecidableEq α] {cats : List α} {v : α}
    (h : v ∈ cats) : ohDecodeOne cats (ohEncodeOne cats v) = some v := by
  induction cats with
  | nil => cases h
  | cons c cs ih =>
    by_cases hv : v = c
    · subst hv
      simp [ohDecodeOne, ohEncodeOne]
    · have hmem : v ∈ cs := (List.mem_cons.mp h).resolve_left hv
      simpa [ohDecodeOne, ohEncodeOne, hv] using ih hmem

/-- Encoding a value that is not among the fitted categories yields the
all-zero block (and never an error). -/
theorem ohEncodeOne_of_not_mem {α : Type} [DecidableEq α] {cats : List α} {v : α}
    (h : v ∉ cats) : ohEncodeOne cats v = List.replicate cats.length 0 := by
  induction cats with
  | nil => rfl
  | cons c cs ih =>
    have hv : v ≠ c := fun hvc => h (hvc ▸ List.mem_cons_self c cs)
    have hcs : v ∉ cs := fun hm => h (List.mem_cons_of_mem c hm)
    simp only [ohEncodeOne, List.map_cons, if_neg hv, List.length_cons, List.replicate_succ]
    exact congrArg (List.cons 0) (ih hcs)

/-- Decoding the candidate one-hot block recovers the candidate list. -/
theorem decodedItems_eq (df : List Row) (k : ℕ) :
    decodedItems df k = top_n_items df k := by
  rw [decodedItems]
  have h : ∀ s ∈ top_n_items df k,
      (ohDecodeOne (stockCategories df) (ohEncodeOne (stockCategories df) s)).getD "" = s := by
    intro s hs
    rw [ohDecodeOne_ohEncodeOne (mem_stockCategories df s (mem_top_n_items df k s hs))]
    rfl
  exact (List.map_congr_left h).trans (List.map_id _)

/-- `value_counts().index[0]` returns a mode of the list. -/
theorem mostCommon_isMode {α : Type} [DecidableEq α] {l : List α} {a : α}
    (h : mostCommon l = some a) : IsMode l a := by
  have ha : a ∈ l.argmax (fun x => l.count x) := h
  exact ⟨List.argmax_mem ha, fun x hx => List.le_of_mem_argmax hx ha⟩

/-- On a nonempty list, `value_counts().index[0]` is defined. -/
theorem mostCommon_isSome {α : Type} [DecidableEq α] {l : List α} (h : l ≠ []) :
    ∃ a, mostCommon l = some a := by
  cases hm : mostCommon l with
  | none => exact absurd (List.argmax_eq_none.mp hm) h
  | some a => exact ⟨a, rfl⟩

/-- `item_map` assigns each stock code occurring in `df` a mode of its
recorded descriptions. -/
theorem item_map_isMode (df : List Row) (s : String)
    (h : descriptionsOf df s ≠ []) : IsMode (descriptionsOf df s) (item_map df s) := by
  obtain ⟨a, ha⟩ := mostCommon_isSome h
  rw [item_map, ha]
  exact mostCommon_isMode ha

/-- Candidate stock codes have nonempty description lists in `df`. -/
theorem descriptionsOf_ne_nil (df : List Row) (s : String)
    (h : ∃ r ∈ df, r.stockCode = s) : descriptionsOf df s ≠ [] := by
  obtain ⟨r, hr, hs⟩ := h
  intro hnil
  have : r.description ∈ descriptionsOf df s := by
    rw [descriptionsOf, List.mem_map]
    exact ⟨r, List.mem_filter.mpr ⟨hr, by simp [hs]⟩, rfl⟩
  rw [hnil] at this
  cases this

/-- The endpoint scores, expressed through the found country. -/
theorem predsOf_eq {df : List Row} {c : ℕ} {ctry : String} (k : ℕ)
    (tfidf : String → List ℚ) (predict : List ℚ → ℚ)
    (hc : customerCountry df c = some ctry) :
    predsOf df c k tfidf predict =
      ((inferenceRows df c k ctry).map (encodeInfRow df tfidf)).map predict := by
  rw [predsOf, hc]

/-- The decoded item column computed inside `get_recommendations` equals
`decodedItems`. -/
theorem items_eq (df : List Row) (c k : ℕ) (ctry : String) :
    (inferenceRows df c k ctry).map (fun r =>
        (ohDecodeOne (stockCategories df) (ohEncodeOne (stockCategories df) r.stockCode)).getD "")
      = decodedItems df k := by
  rw [decodedItems, ← map_stockCode_inferenceRows df c k ctry, List.map_map]
  rfl

/-- Normal form of `get_recommendations`: the error cases, and otherwise
the selected positions `recIndices` mapped to their decoded item and its
most common description. -/
theorem gr_eq (df : List Row) (c n k : ℕ) (tfidf : String → List ℚ)
    (predict : List ℚ → ℚ) :
    get_recommendations df c n k tfidf predict =
      match customerCountry df c with
      | none => .error .indexError
      | some ctry =>
        if (inferenceRows df c k ctry).isEmpty then .error .valueError
        else .ok ((recIndices df c n k tfidf predict).map
          (fun i => ((decodedItems df k).getD i "",
                     item_map df ((decodedItems df k).getD i "")))) := by
  rw [get_recommendations]
  cases hc : customerCountry df c with
  | none => rfl
  | some ctry =>
    by_cases he : (inferenceRows df c k ctry).isEmpty
    · simp [he]
    · simp only [if_neg he]
      congr 1
      rw [recIndices, predsOf_eq k tfidf predict hc]
      simp only [← List.map_reverse, ← List.map_take, List.map_map]
      simp only [Function.comp_def, items_eq df c k ctry]

/-- Inversion of a successful call: the country lookup succeeded, the
inference frame is nonempty, and the result is the ranked mapping of the
selected positions. -/
theorem gr_ok_elim {df : List Row} {c n k : ℕ} {tfidf : String → List ℚ}
    {predict : List ℚ → ℚ} {recs : List (String × String)}
    (h : get_recommendations df c n k tfidf predict = .ok recs) :
    ∃ ctry, customerCountry df c = some ctry ∧ (inferenceRows df c k ctry).isEmpty = false ∧
      recs = (recIndices df c n k tfidf predict).map
        (fun i => ((decodedItems df k).getD i "",
                   item_map df ((decodedItems df k).getD i ""))) := by
  rw [gr_eq] at h
  cases hc : customerCountry df c with
  | none => rw [hc] at h; cases h
  | some ctry =>
    rw [hc] at h
    dsimp only at h
    by_cases he : (inferenceRows df c k ctry).isEmpty
    · rw [if_pos he] at h; cases h
    · rw [if_neg he] at h
      exact ⟨ctry, rfl, by simpa using he, (Except.ok.inj h).symm⟩

/-- There are as many endpoint scores as candidate rows. -/
theorem length_predsOf {df : List Row} {c : ℕ} {ctry : String} (k : ℕ)
    (tfidf : String → List ℚ) (predict : List ℚ → ℚ)
    (hc : customerCountry df c = some ctry) :
    (predsOf df c k tfidf predict).length = candidateCount df k := by
  rw [predsOf_eq k tfidf predict hc]
  simp [length_inferenceRows]

/-- The ranking step selects `min n_recommendations (candidate count)`
positions. -/
theorem length_recIndices {df : List Row} {c : ℕ} {ctry : String} (n k : ℕ)
    (tfidf : String → List ℚ) (predict : List ℚ → ℚ)
    (hc : customerCountry df c = some ctry) :
    (recIndices df c n k tfidf predict).length = min n (candidateCount df k) := by
  rw [recIndices]
  simp [argsort, List.length_insertionSort, length_predsOf k tfidf predict hc]

/-- A successful call returns `min n_recommendations (candidate count)`
pairs. -/
theorem gr_ok_length {df : List Row} {c n k : ℕ} {tfidf : String → List ℚ}
    {predict : List ℚ → ℚ} {recs : List (String × String)}
    (h : get_recommendations df c n k tfidf predict = .ok recs) :
    recs.length = min n (candidateCount df k) := by
  obtain ⟨ctry, hc, _, hrecs⟩ := gr_ok_elim h
  rw [hrecs, List.length_map, length_recIndices n k tfidf predict hc]

/-- `argsort` orders the positions by ascending value. -/
theorem argsort_sorted (l : List ℚ) : List.Sorted (leIdx l) (argsort l) :=
  List.sorted_insertionSort (leIdx l) (List.range l.length)

/-- `argsort` is a permutation of all positions. -/
theorem argsort_perm (l : List ℚ) : (argsort l).Perm (List.range l.length) :=
  List.perm_insertionSort (leIdx l) (List.range l.length)

/-- Every selected position indexes a candidate row. -/
theorem mem_recIndices_lt {df : List Row} {c : ℕ} {ctry : String} {n k i : ℕ}
    {tfidf : String → List ℚ} {predict : List ℚ → ℚ}
    (hc : customerCountry df c = some ctry)
    (h : i ∈ recIndices df c n k tfidf predict) : i < candidateCount df k := by
  rw [recIndices] at h
  have h1 : i ∈ (argsort (predsOf df c k tfidf predict)).reverse :=
    List.mem_of_mem_take h
  rw [List.mem_reverse] at h1
  have h2 := (argsort_perm _).mem_iff.mp h1
  rw [List.mem_range, length_predsOf k tfidf predict hc] at h2
  exact h2

/-- The scores along the returned recommendation list are descending. -/
theorem recScores_descending (df : List Row) (c n k : ℕ) (tfidf : String → List ℚ)
    (predict : List ℚ → ℚ) :
    List.Sorted (fun a b : ℚ => b ≤ a) (recScores df c n k tfidf predict) := by
  have h1 : List.Pairwise (leIdx (predsOf df c k tfidf predict))
      (argsort (predsOf df c k tfidf predict)) := argsort_sorted _
  have h2 : List.Pairwise (fun i j => leIdx (predsOf df c k tfidf predict) j i)
      ((argsort (predsOf df c k tfidf predict)).reverse) :=
    List.pairwise_reverse.mpr h1
  have h3 := List.Pairwise.sublist (List.take_sublist n _) h2
  rw [recScores, List.Sorted, List.pairwise_map]
  exact h3

/-- Every returned pair is a candidate stock code together with its most
common description. -/
theorem mem_recs_elim {df : List Row} {c n k : ℕ} {tfidf : String → List ℚ}
    {predict : List ℚ → ℚ} {recs : List (String × String)} {q : String × String}
    (h : get_recommendations df c n k tfidf predict = .ok recs) (hq : q ∈ recs) :
    ∃ s ∈ top_n_items df k, q = (s, item_map df s) := by
  obtain ⟨ctry, hc, _, hrecs⟩ := gr_ok_elim h
  rw [hrecs, List.mem_map] at hq
  obtain ⟨i, hi, rfl⟩ := hq
  have hlt : i < (top_n_items df k).length := by
    rw [length_top_n_items]
    exact mem_recIndices_lt hc hi
  rw [decodedItems_eq, List.getD_eq_getElem _ _ hlt]
  exact ⟨(top_n_items df k)[i], List.getElem_mem hlt, rfl⟩

/-- The local pipeline depends on the endpoint only through the scores it
returns for the encoded rows. -/
theorem predsOf_congr {df : List Row} {c k : ℕ} {tfidf : String → List ℚ}
    {predict1 predict2 : List ℚ → ℚ} (hp : ∀ x, predict1 x = predict2 x) :
    predsOf df c k tfidf predict1 = predsOf df c k tfidf predict2 := by
  rw [predsOf, predsOf]
  cases customerCountry df c with
  | none => rfl
  | some ctry => exact List.map_congr_left (fun a _ => hp a)

/-- `popular_items` is sorted by descending distinct-customer count. -/
theorem popular_items_sorted (df : List Row) :
    List.Sorted countGe (popular_items df) :=
  List.sorted_insertionSort countGe _

/-- Every selected group dominates every unselected group in
distinct-customer count. -/
theorem popular_take_drop (df : List Row) (k : ℕ) :
    ∀ a ∈ (popular_items df).take k, ∀ b ∈ (popular_items df).drop k, b.2 ≤ a.2 := by
  have hs : List.Pairwise countGe (popular_items df) := popular_items_sorted df
  rw [← List.take_append_drop k (popular_items df)] at hs
  exact fun a ha b hb => (List.pairwise_append.mp hs).2.2 a ha b hb

/-- C1: every list returned by `get_recommendations` consists of
(item identifier, description) pairs ordered by descending predicted score
as returned by the scoring endpoint, truncated to the requested count
`n_recommendations`: the result has `min n_recommendations (candidate
count)` entries, the predicted scores along the returned order are
descending, and the result is exactly the selected positions `recIndices`
(argsort of the scores, reversed, truncated) mapped to their candidate
item and its description. -/
theorem claim_c1_ranking_sorted_truncated (df : List Row) (c n k : ℕ)
    (tfidf : String → List ℚ) (predict : List ℚ → ℚ) (recs : List (String × String))
    (h : get_recommendations df c n k tfidf predict = .ok recs) :
    recs.length = min n (candidateCount df k)
    ∧ List.Sorted (fun a b : ℚ => b ≤ a) (recScores df c n k tfidf predict)
    ∧ recs = (recIndices df c n k tfidf predict).map
        (fun i => ((top_n_items df k).getD i "",
                   item_map df ((top_n_items df k).getD i ""))) := by
  refine ⟨gr_ok_length h, recScores_descending df c n k tfidf predict, ?_⟩
  obtain ⟨ctry, hc, he, hrecs⟩ := gr_ok_elim h
  rw [hrecs, decodedItems_eq]

/-- Witness for C1 at a concrete dataframe: two candidate rows scored by
their unit price, requesting two recommendations. -/
theorem claim_c1_witness :
    recsW.length = min 2 (candidateCount dfW 5)
    ∧ List.Sorted (fun a b : ℚ => b ≤ a) (recScores dfW 1 2 5 tfidfW predictW)
    ∧ recsW = (recIndices dfW 1 2 5 tfidfW predictW).map
        (fun i => ((top_n_items dfW 5).getD i "",
                   item_map dfW ((top_n_items dfW 5).getD i ""))) :=
  claim_c1_ranking_sorted_truncated dfW 1 2 5 tfidfW predictW recsW (by decide)

/-- C2 fails as stated: on a one-row dataframe the candidate-selection
step returns one row, not the requested two; and on `dfSplit`, where item
`A` has four distinct buyers split over two prices and item `B` has three
distinct buyers at one price, the single selected candidate is `B` even
though `A` is the most popular item by distinct-customer count — the code
ranks `(StockCode, UnitPrice)` groups, not items. -/
theorem claim_c2_counterexample :
    (top_n_items dfOne 2).length ≠ 2
    ∧ top_n_items dfSplit 1 = ["B"]
    ∧ itemDistinctCustomers dfSplit "B" < itemDistinctCustomers dfSplit "A" := by
  decide

/-- C2 amended: the candidate-selection step returns
`min n_ranks (number of (StockCode, UnitPrice) groups)` candidates, and
these are the groups with the greatest distinct-customer counts — the
popularity list is sorted by descending count, every selected group
dominates every unselected one, and each entry is a genuine group of `df`
annotated with its distinct-customer count. -/
theorem claim_c2_amended (df : List Row) (k : ℕ) :
    (top_n_items df k).length = candidateCount df k
    ∧ List.Sorted countGe (popular_items df)
    ∧ (∀ a ∈ (popular_items df).take k, ∀ b ∈ (popular_items df).drop k, b.2 ≤ a.2)
    ∧ (∀ g ∈ popular_items df, g.1 ∈ groupKeys df ∧ g.2 = groupCustomerCount df g.1) :=
  ⟨length_top_n_items df k, popular_items_sorted df, popular_take_drop df k,
   fun g hg => mem_popular_items df g hg⟩

/-- C3: when more recommendations are requested than candidate rows were
built, the returned list is never padded beyond the candidate count. -/
theorem claim_c3_truncation (df : List Row) (c n k : ℕ) (tfidf : String → List ℚ)
    (predict : List ℚ → ℚ) (recs : List (String × String))
    (h : get_recommendations df c n k tfidf predict = .ok recs)
    (_hn : candidateCount df k < n) :
    recs.length ≤ candidateCount df k := by
  rw [gr_ok_length h]
  exact min_le_right _ _

/-- Witness for C3: requesting three recommendations from a one-item
dataframe returns a single pair. -/
theorem claim_c3_witness : [("A", "GIFT")].length ≤ candidateCount dfOne 5 :=
  claim_c3_truncation dfOne 1 3 5 tfidfW predictW [("A", "GIFT")] (by decide) (by decide)

/-- C4 fails as stated: with `handle_unknown="ignore"` an unseen category
value is encoded as the all-zero block — there is no explicit "unknown"
bucket: no coordinate of the encoded block is set, and the block has
exactly one coordinate per known category, with no extra column. -/
theorem claim_c4_counterexample :
    ohEncodeOne (stockCategories dfOne) "Z" = [0]
    ∧ (1 : ℕ) ∉ ohEncodeOne (stockCategories dfOne) "Z"
    ∧ (ohEncodeOne (stockCategories dfOne) "Z").length = (stockCategories dfOne).length := by
  decide

/-- C4 amended: for each of the three one-hot columns (stock code,
customer id, country), a value not seen by the fitted encoder is encoded
as the all-zero block of the column's width, and encoding such a value
never raises an error (the encoding is total). -/
theorem claim_c4_amended (df : List Row) :
    (∀ v : String, v ∉ stockCategories df →
        ohEncodeOne (stockCategories df) v = List.replicate (stockCategories df).length 0)
    ∧ (∀ cid : ℕ, cid ∉ customerCategories df →
        ohEncodeOne (customerCategories df) cid = List.replicate (customerCategories df).length 0)
    ∧ (∀ v : String, v ∉ countryCategories df →
        ohEncodeOne (countryCategories df) v = List.replicate (countryCategories df).length 0) :=
  ⟨fun _ h => ohEncodeOne_of_not_mem h, fun _ h => ohEncodeOne_of_not_mem h,
   fun _ h => ohEncodeOne_of_not_mem h⟩

/-- Witness for C4 (amended) at concrete unseen values for each column. -/
theorem claim_c4_witness :
    ohEncodeOne (stockCategories dfOne) "Z" = List.replicate (stockCategories dfOne).length 0
    ∧ ohEncodeOne (customerCategories dfOne) 99
        = List.replicate (customerCategories dfOne).length 0
    ∧ ohEncodeOne (countryCategories dfOne) "ZZ"
        = List.replicate (countryCategories dfOne).length 0 :=
  ⟨(claim_c4_amended dfOne).1 "Z" (by decide), (claim_c4_amended dfOne).2.1 99 (by decide),
   (claim_c4_amended dfOne).2.2 "ZZ" (by decide)⟩

/-- C5 fails as stated: with an empty candidate pool the function does not
return an empty list — for `n_ranks = 0` on a nonempty dataframe it raises
the `csr_matrix` ValueError (zero-sized index arrays), and on an empty
dataframe it raises IndexError at the customer-country lookup. -/
theorem claim_c5_counterexample :
    get_recommendations dfOne 1 5 0 tfidfW predictW = .error .valueError
    ∧ get_recommendations ([] : List Row) 1 5 3 tfidfW predictW = .error .indexError
    ∧ get_recommendations dfOne 1 5 0 tfidfW predictW ≠ .ok [] := by
  decide

/-- C5 amended: whenever the candidate pool is empty, `get_recommendations`
raises an exception instead of returning a (necessarily empty) list. -/
theorem claim_c5_amended (df : List Row) (c n k : ℕ) (tfidf : String → List ℚ)
    (predict : List ℚ → ℚ) (h : top_n_items df k = []) :
    ∃ e, get_recommendations df c n k tfidf predict = .error e := by
  rw [gr_eq]
  cases hc : customerCountry df c with
  | none => exact ⟨.indexError, rfl⟩
  | some ctry =>
    have hinf : inferenceRows df c k ctry = [] := by
      rw [inferenceRows, h]
      rfl
    exact ⟨.valueError, by simp [hinf]⟩

/-- Witness for C5 (amended): `n_ranks = 0` on the one-row dataframe. -/
theorem claim_c5_witness :
    ∃ e, get_recommendations dfOne 1 5 0 tfidfW predictW = .error e :=
  claim_c5_amended dfOne 1 5 0 tfidfW predictW (by decide)

/-- C6: the local encode-and-sort step is deterministic — two calls with
the same dataframe, customer id, requested counts and fitted text encoder,
whose score responses from the external model agree on every encoded row,
return identical rankings.  (The fitted TF-IDF transform is itself a
deterministic function of `df`, so identical input data yields the same
`tfidf` argument.) -/
theorem claim_c6_determinism (df : List Row) (c n k : ℕ) (tfidf : String → List ℚ)
    (predict1 predict2 : List ℚ → ℚ) (hp : ∀ x, predict1 x = predict2 x) :
    get_recommendations df c n k tfidf predict1
      = get_recommendations df c n k tfidf predict2 := by
  have hpred : predsOf df c k tfidf predict1 = predsOf df c k tfidf predict2 :=
    predsOf_congr hp
  rw [gr_eq, gr_eq]
  simp only [recIndices, hpred]

/-- Witness for C6: two syntactically different but pointwise equal
scoring functions yield the same result on `dfW`. -/
theorem claim_c6_witness :
    get_recommendations dfW 1 2 5 tfidfW predictW
      = get_recommendations dfW 1 2 5 tfidfW predictW2 :=
  claim_c6_determinism dfW 1 2 5 tfidfW predictW predictW2
    (fun x => by simp [predictW, predictW2])

/-- C7: whenever the model-package polling loop terminates with an
observed status, that status is one of the recognized terminal values
`Completed` or `Failed`; and on any other status the loop sleeps and polls
the next observation. -/
theorem claim_c7_polling (statuses : ℕ → String) (i fuel : ℕ) (s : String) :
    (pollLoop statuses i fuel = some s → s = "Completed" ∨ s = "Failed")
    ∧ (statuses i ∉ terminalStatuses →
        pollLoop statuses i (fuel + 1) = pollLoop statuses (i + 1) fuel) := by
  constructor
  · intro h
    induction fuel generalizing i with
    | zero => simp [pollLoop] at h
    | succ fuel ih =>
      simp only [pollLoop] at h
      by_cases ht : statuses i ∈ terminalStatuses
      · rw [if_pos ht] at h
        obtain rfl : statuses i = s := Option.some.inj h
        simpa [terminalStatuses] using ht
      · rw [if_neg ht] at h
        exact ih _ h
  · intro ht
    simp [pollLoop, ht]

/-- Witness for C7: a stream with one non-terminal observation followed by
`Completed`; the loop result is terminal, and the non-terminal first
observation makes the loop poll again. -/
theorem claim_c7_witness :
    ("Completed" = "Completed" ∨ "Completed" = "Failed")
    ∧ pollLoop statusesW 0 3 = pollLoop statusesW 1 2 :=
  ⟨(claim_c7_polling statusesW 0 2 "Completed").1 (by decide),
   (claim_c7_polling statusesW 0 2 "Completed").2 (by decide)⟩

/-- C8: the artifact-association loop never propagates an exception from
association creation — it always returns successfully, with one outcome
per artifact, where an artifact whose creation failed is assumed to
already be associated and the loop proceeds to the next artifact. -/
theorem claim_c8_association {α ε : Type} (create : α → Except ε Unit) (arts : List α) :
    associationLoop create arts = .ok (arts.map (assocOutcome create)) := by
  induction arts with
  | nil => rfl
  | cons a rest ih =>
    simp only [associationLoop, ih, List.map_cons]

/-- C9: every inference feature row carries the fixed customer id, the
customer's most common country (a mode of the customer's recorded
countries), the candidate item's most common description, and a
`(StockCode, UnitPrice)` pair observed in the dataframe; and every
returned pair carries the most frequent description recorded for its
stock code. -/
theorem claim_c9_feature_rows (df : List Row) (c n k : ℕ) (tfidf : String → List ℚ)
    (predict : List ℚ → ℚ) (recs : List (String × String)) (ctry : String)
    (h : get_recommendations df c n k tfidf predict = .ok recs)
    (hc : customerCountry df c = some ctry) :
    IsMode (countriesOf df c) ctry
    ∧ (∀ r ∈ inferenceRows df c k ctry,
        r.customerId = c ∧ r.country = ctry ∧ r.description = item_map df r.stockCode
        ∧ IsMode (descriptionsOf df r.stockCode) r.description
        ∧ (r.stockCode, r.unitPrice) ∈ df.map (fun row => (row.stockCode, row.unitPrice)))
    ∧ (∀ q ∈ recs, q.2 = item_map df q.1 ∧ IsMode (descriptionsOf df q.1) q.2) := by
  refine ⟨mostCommon_isMode hc, ?_, ?_⟩
  · intro r hr
    rw [inferenceRows, zip_top_n, List.map_map, List.mem_map] at hr
    obtain ⟨g, hg, rfl⟩ := hr
    have hstock : g.1.1 ∈ top_n_items df k := by
      rw [top_n_items, List.mem_map]
      exact ⟨g, hg, rfl⟩
    have hdf : ∃ row ∈ df, row.stockCode = g.1.1 := mem_top_n_items df k g.1.1 hstock
    refine ⟨rfl, rfl, rfl, item_map_isMode df g.1.1 (descriptionsOf_ne_nil df g.1.1 hdf), ?_⟩
    have hkey : g.1 ∈ groupKeys df := (mem_popular_items df g (List.mem_of_mem_take hg)).1
    exact (mem_groupKeys_iff df g.1).mp hkey
  · intro q hq
    obtain ⟨s, hs, rfl⟩ := mem_recs_elim h hq
    exact ⟨rfl, item_map_isMode df s
      (descriptionsOf_ne_nil df s (mem_top_n_items df k s hs))⟩

/-- Witness for C9 at the concrete dataframe `dfW`. -/
theorem claim_c9_witness :
    IsMode (countriesOf dfW 1) "UK"
    ∧ (∀ r ∈ inferenceRows dfW 1 5 "UK",
        r.customerId = 1 ∧ r.country = "UK" ∧ r.description = item_map dfW r.stockCode
        ∧ IsMode (descriptionsOf dfW r.stockCode) r.description
        ∧ (r.stockCode, r.unitPrice) ∈ dfW.map (fun row => (row.stockCode, row.unitPrice)))
    ∧ (∀ q ∈ recsW, q.2 = item_map dfW q.1 ∧ IsMode (descriptionsOf dfW q.1) q.2) :=
  claim_c9_feature_rows dfW 1 2 5 tfidfW predictW recsW "UK" (by decide) (by decide)

/-- C10: the one-hot encoder is fit on the full dataframe and every
candidate stock code is drawn from it, so `inverse_transform` recovers
each encoded candidate exactly; consequently every item identifier in the
returned recommendation list belongs to the selected candidate pool. -/
theorem claim_c10_roundtrip (df : List Row) (c n k : ℕ) (tfidf : String → List ℚ)
    (predict : List ℚ → ℚ) (recs : List (String × String))
    (h : get_recommendations df c n k tfidf predict = .ok recs) :
    (∀ s ∈ top_n_items df k,
        ohDecodeOne (stockCategories df) (ohEncodeOne (stockCategories df) s) = some s)
    ∧ decodedItems df k = top_n_items df k
    ∧ (∀ q ∈ recs, q.1 ∈ top_n_items df k) := by
  refine ⟨fun s hs =>
      ohDecodeOne_ohEncodeOne (mem_stockCategories df s (mem_top_n_items df k s hs)),
    decodedItems_eq df k, fun q hq => ?_⟩
  obtain ⟨s, hs, rfl⟩ := mem_recs_elim h hq
  exact hs

/-- Witness for C10 at the concrete dataframe `dfW`. -/
theorem claim_c10_witness :
    (∀ s ∈ top_n_items dfW 5,
        ohDecodeOne (stockCategories dfW) (ohEncodeOne (stockCategories dfW) s) = some s)
    ∧ decodedItems dfW 5 = top_n_items dfW 5
    ∧ (∀ q ∈ recsW, q.1 ∈ top_n_items dfW 5) :=
  claim_c10_roundtrip dfW 1 2 5 tfidfW predictW recsW (by decide)

end RetailRecommend
